import Mathlib

/-
Verification of the repository-open (bootstrap) layer of the kopia fork.

The development shallowly embeds the `repo` package functions `Open` / `openDirect` /
`openWithConfig` pipeline (source file: cli/app.go, second package in the
file).  Pure functions of the source are translated into Lean functions;
external collaborators that live outside the provided sources (the `feature`,
`retry`, `beforeop`, `throttling` packages and the JSON codec) are modelled
from the specification, each such definition carrying a doc comment that
starts with "Modelled from the spec:".
-/

namespace Kopia

/-- Errors of the open pipeline.  `wrapped` mirrors `errors.Wrap` (context
message plus preserved cause), `external` stands for an opaque error coming
from a collaborator outside this layer. -/
inductive RepoError where
  | upgradeInProgress
  | cannotWritePermissive
  | storageNotSet
  | missingFeature (msg : String)
  | external (tag : String) (code : Nat)
  | wrapped (msg : String) (inner : RepoError)
deriving DecidableEq

/-- Mirrors `errors.Is(err, ErrRepositoryUnavailableDueToUpgradeInProgress)`:
walks the wrap chain looking for the upgrade-in-progress sentinel. -/
def RepoError.causedByUpgradeInProgress : RepoError → Bool
  | .upgradeInProgress => true
  | .wrapped _ inner => inner.causedByUpgradeInProgress
  | _ => false

/-- One required feature declared by the repository format, as consumed by
`handleMissingRequiredFeatures`.  `warnOnly` is `IfNotUnderstood.Warn`;
`unsupportedMessage` is the human-readable message of the feature itself
(`UnsupportedMessage()`, opaque to this layer). -/
structure RequiredFeature where
  feature : String
  warnOnly : Bool
  unsupportedMessage : String
deriving DecidableEq

/-- The features this build supports (source: `supportedFeatures`). -/
def supportedFeatures : List String := ["index-v1", "index-v2"]

/-- Modelled from the spec: `feature.GetUnsupportedFeatures(required, supported)`
returns the required features absent from the supported set. -/
def getUnsupportedFeatures (required : List RequiredFeature) (supported : List String) :
    List RequiredFeature :=
  required.filter (fun f => !(supported.contains f.feature))

/-- The loop body of `handleMissingRequiredFeatures`: walk the missing
features; a feature that is ignored or warn-only is logged and skipped,
the first other feature aborts with its own unsupported-message. -/
def processMissingFeatures (ignoreErrors : Bool) : List RequiredFeature → Except RepoError Unit
  | [] => .ok ()
  | mf :: rest =>
    if ignoreErrors || mf.warnOnly then processMissingFeatures ignoreErrors rest
    else .error (.missingFeature mf.unsupportedMessage)

/-- Source `handleMissingRequiredFeatures`: fetch the required features from
the format manager (here: its memoised result), then compare against the
supported features of the build. -/
def handleMissingRequiredFeatures (requiredResult : Except RepoError (List RequiredFeature))
    (supported : List String) (ignoreErrors : Bool) : Except RepoError Unit :=
  match requiredResult with
  | .error e => .error (.wrapped "required features" e)
  | .ok required => processMissingFeatures ignoreErrors (getUnsupportedFeatures required supported)

lemma processMissingFeatures_ignore (l : List RequiredFeature) :
    processMissingFeatures true l = .ok () := by
  induction l with
  | nil => rfl
  | cons x rest ih => simpa [processMissingFeatures] using ih

lemma processMissingFeatures_ok_iff (l : List RequiredFeature) :
    processMissingFeatures false l = .ok () ↔ ∀ f ∈ l, f.warnOnly = true := by
  induction l with
  | nil => simp [processMissingFeatures]
  | cons x rest ih =>
    by_cases hx : x.warnOnly = true
    · simp [processMissingFeatures, hx, ih]
    · have hx0 : x.warnOnly = false := by simpa using hx
      simp [processMissingFeatures, hx0]

lemma processMissingFeatures_error_char (l : List RequiredFeature) (e : RepoError) :
    processMissingFeatures false l = .error e →
    ∃ f ∈ l, f.warnOnly = false ∧ e = .missingFeature f.unsupportedMessage := by
  induction l with
  | nil => intro h; simp [processMissingFeatures] at h
  | cons x rest ih =>
    intro h
    by_cases hx : x.warnOnly = true
    · simp [processMissingFeatures, hx] at h
      obtain ⟨f, hf, hw, he⟩ := ih h
      exact ⟨f, by simp [hf], hw, he⟩
    · have hx0 : x.warnOnly = false := by simpa using hx
      simp [processMissingFeatures, hx0] at h
      exact ⟨x, by simp, hx0, h.symm⟩

lemma processMissingFeatures_error_exists (l : List RequiredFeature)
    (h : ∃ f ∈ l, f.warnOnly = false) :
    ∃ e, processMissingFeatures false l = .error e := by
  cases hres : processMissingFeatures false l with
  | ok u =>
    cases u
    obtain ⟨f, hf, hw⟩ := h
    have := (processMissingFeatures_ok_iff l).mp hres f hf
    rw [this] at hw
    cases hw
  | error e => exact ⟨e, rfl⟩

/-- C2: the feature gate fails iff some required feature is missing from the
supported set, is not warn-only, and the test-only ignore flag is off; the
returned error is the unsupported message of the missing feature itself. -/
theorem featureGate_error_iff (R : List RequiredFeature) (S : List String) (ign : Bool) :
    ((∃ e, handleMissingRequiredFeatures (.ok R) S ign = .error e) ↔
      (ign = false ∧ ∃ f ∈ R, S.contains f.feature = false ∧ f.warnOnly = false)) ∧
    (∀ e, handleMissingRequiredFeatures (.ok R) S ign = .error e →
      ∃ f ∈ R, S.contains f.feature = false ∧ f.warnOnly = false ∧
        e = .missingFeature f.unsupportedMessage) := by
  cases ign with
  | true =>
    constructor
    · constructor
      · rintro ⟨e, he⟩
        rw [handleMissingRequiredFeatures, processMissingFeatures_ignore] at he
        cases he
      · rintro ⟨h, -⟩
        cases h
    · intro e he
      rw [handleMissingRequiredFeatures, processMissingFeatures_ignore] at he
      cases he
  | false =>
    constructor
    · constructor
      · rintro ⟨e, he⟩
        rw [handleMissingRequiredFeatures] at he
        obtain ⟨f, hf, hw, -⟩ := processMissingFeatures_error_char _ _ he
        rw [getUnsupportedFeatures, List.mem_filter] at hf
        refine ⟨rfl, f, hf.1, ?_, hw⟩
        have := hf.2
        simpa using this
      · rintro ⟨-, f, hfR, hfc, hw⟩
        have hmem : f ∈ getUnsupportedFeatures R S := by
          rw [getUnsupportedFeatures, List.mem_filter]
          exact ⟨hfR, by simpa using hfc⟩
        obtain ⟨e, he⟩ := processMissingFeatures_error_exists _ ⟨f, hmem, hw⟩
        exact ⟨e, by rw [handleMissingRequiredFeatures]; exact he⟩
    · intro e he
      rw [handleMissingRequiredFeatures] at he
      obtain ⟨f, hf, hw, hmsg⟩ := processMissingFeatures_error_char _ _ he
      rw [getUnsupportedFeatures, List.mem_filter] at hf
      refine ⟨f, hf.1, ?_, hw, hmsg⟩
      have := hf.2
      simpa using this

/-- A feature required by the repository but unknown to this build, used to
exercise the gate. -/
def featureV3 : RequiredFeature :=
  { feature := "index-v3", warnOnly := false, unsupportedMessage := "feature index-v3 is required" }

/-- Witness for C2: with a single missing hard-fail feature and the ignore
flag off, the gate reports an error. -/
theorem featureGate_error_iff_witness :
    handleMissingRequiredFeatures (.ok [featureV3]) supportedFeatures false ≠ .ok () := by
  obtain ⟨e, he⟩ := (featureGate_error_iff [featureV3] supportedFeatures false).1.mpr
    ⟨rfl, featureV3, by simp, by decide, rfl⟩
  rw [he]
  intro h
  cases h

/-- Throttling limits (`throttling.Limits`); the individual quota fields are
opaque to this layer, the zero value means "no limit". -/
structure Limits where
  readsPerSecond : Nat
  writesPerSecond : Nat
  uploadBytesPerSecond : Nat
deriving DecidableEq

/-- The zero-value `throttling.Limits{}`. -/
def Limits.zero : Limits := { readsPerSecond := 0, writesPerSecond := 0, uploadBytesPerSecond := 0 }

/-- Modelled from the spec: outcome of marshalling the advertised
store connection-info config to JSON and unmarshalling it as throttling limits
(the JSON codec lives outside this layer). -/
inductive ParseOutcome where
  | marshalFail
  | unmarshalFail
  | parsed (l : Limits)
deriving DecidableEq

/-- Source `throttlingLimitsFromConnectionInfo`: either of the two codec
failures falls back to the zero-value (no-limit) limits. -/
def throttlingLimitsFromConnectionInfo : ParseOutcome → Limits
  | .marshalFail => Limits.zero
  | .unmarshalFail => Limits.zero
  | .parsed l => l

/-- The two source lines that resolve the effective limits: start from the
connection-info limits, then let an operator-supplied override win. -/
def effectiveThrottlingLimits (override : Option Limits) (p : ParseOutcome) : Limits :=
  match override with
  | some l => l
  | none => throttlingLimitsFromConnectionInfo p

/-- Modelled from the spec: the persisted upgrade-lock intent with its owner
identity and lock timestamp window. -/
structure UpgradeLockIntent where
  ownerID : String
  lockedFrom : Nat
  lockedUntil : Nat
deriving DecidableEq

/-- Modelled from the spec: `uli.IsLocked(now)` — a nil intent is never
locked, otherwise the lock holds while `now` is inside the window. -/
def isLockedAt (u : Option UpgradeLockIntent) (now : Nat) : Bool :=
  match u with
  | none => false
  | some l => decide (l.lockedFrom ≤ now ∧ now ≤ l.lockedUntil)

/-- Owner of a possibly-absent lock intent; never consulted for an absent
intent because `isLockedAt` is false there (Go short-circuit). -/
def lockOwner (u : Option UpgradeLockIntent) : String :=
  match u with
  | none => ""
  | some l => l.ownerID

/-- The attempt body of the "wait for upgrade" retry loop in
`openWithConfig`: a fetch error propagates; otherwise, unless permissive
cache loading is on, a lock held by a different owner aborts with the
upgrade-in-progress sentinel. -/
def openUpgradeAttempt (permissive : Bool) (upgradeOwnerID : String) (now : Nat)
    (fetchResult : Except RepoError (Option UpgradeLockIntent)) : Except RepoError Unit :=
  match fetchResult with
  | .error e => .error e
  | .ok uli =>
    if !permissive then
      if isLockedAt uli now && upgradeOwnerID != lockOwner uli then
        .error .upgradeInProgress
      else
        .ok ()
    else
      .ok ()

/-- The retry predicate passed to the backoff loop: only the
upgrade-in-progress error is retried, and only when the caller did not opt
out via `DoNotWaitForUpgrade`. -/
def isRetriableUpgrade (doNotWaitForUpgrade : Bool) (e : RepoError) : Bool :=
  !doNotWaitForUpgrade && e.causedByUpgradeInProgress

/-- Modelled from the spec: `retry.WithExponentialBackoffMaxRetries` with -1
retries — re-run the attempt while the error is retriable, with unlimited
retries.  `fuel` bounds how many attempts we unfold; `none` means the loop
is still waiting in backoff after that many attempts. -/
def retryLoop (attempt : Nat → Except RepoError Unit) (isRetriable : RepoError → Bool) :
    Nat → Nat → Option (Except RepoError Unit)
  | _, 0 => none
  | i, fuel + 1 =>
    match attempt i with
    | .ok u => some (.ok u)
    | .error e =>
      if isRetriable e then retryLoop attempt isRetriable (i + 1) fuel
      else some (.error e)

/-- Modelled from the spec: a key produced by
`format.DeriveKeyFromMasterKey` — the derivation is deterministic in its
inputs, recorded here symbolically. -/
structure DerivedKey where
  masterKey : List Nat
  uniqueID : List Nat
  purpose : String
  length : Nat
deriving DecidableEq

/-- Symbolic `format.DeriveKeyFromMasterKey(masterKey, uniqueID, purpose, length)`. -/
def deriveKeyFromMasterKey (masterKey uniqueID : List Nat) (purpose : String) (length : Nat) :
    DerivedKey :=
  { masterKey := masterKey, uniqueID := uniqueID, purpose := purpose, length := length }

/-- Source constant `localCacheIntegrityPurpose`. -/
def localCacheIntegrityPurpose : String := "local-cache-integrity"

/-- Source constant `localCacheIntegrityHMACSecretLength`. -/
def localCacheIntegrityHMACSecretLength : Nat := 16

/-- Blob configuration (`format.BlobStorageConfiguration`): the retention
mode and period used by the locking wrapper. -/
structure BlobStorageConfiguration where
  retentionMode : String
  retentionPeriod : Int
deriving DecidableEq

/-- Modelled from the spec: `BlobStorageConfiguration.IsRetentionEnabled` —
retention is enabled when a mode is set and the period is non-zero (the
method body lives outside this layer). -/
def BlobStorageConfiguration.IsRetentionEnabled (c : BlobStorageConfiguration) : Bool :=
  c.retentionMode != "" && c.retentionPeriod != 0

/-- Blob `PutOptions`: the two retention fields the locking wrapper may
inject, plus `rest`, standing for all other fields, which this layer never
touches. -/
structure PutOptions where
  retentionMode : String
  retentionPeriod : Int
  rest : Nat
deriving DecidableEq

/-- The format manager as observed by the open pipeline: memoised results of
its accessors (`RequiredFeatures`, `BlobCfgBlob`, `UpgradeLockIntent` as a
per-attempt stream, `LoadedTime`, the key material and capability flag). -/
structure FormatManager where
  requiredFeaturesResult : Except RepoError (List RequiredFeature)
  supportsPasswordChange : Bool
  hmacSecret : List Nat
  formatEncryptionKey : List Nat
  uniqueID : List Nat
  blobCfgResult : Except RepoError BlobStorageConfiguration
  upgradeLockFetches : Nat → Except RepoError (Option UpgradeLockIntent)
  loadedTime : Nat

/-- The `if fmgr.SupportsPasswordChange()` branch of `openWithConfig` that
selects the master secret for the local-cache-integrity key: the dedicated
HMAC secret when password change is supported, the format encryption key on
the legacy path. -/
def selectLocalCacheHMACSecret (fmgr : FormatManager) : DerivedKey :=
  if fmgr.supportsPasswordChange then
    deriveKeyFromMasterKey fmgr.hmacSecret fmgr.uniqueID localCacheIntegrityPurpose
      localCacheIntegrityHMACSecretLength
  else
    deriveKeyFromMasterKey fmgr.formatEncryptionKey fmgr.uniqueID localCacheIntegrityPurpose
      localCacheIntegrityHMACSecretLength

/-- The wrapped storage value threaded through `openDirect` and
`openWithConfig`: the base store plus the decorator layers the pipeline
applies, each layer recorded with the data it closes over. -/
inductive Storage where
  | base
  | tracing (inner : Storage)
  | readonlyW (inner : Storage)
  | metricsW (inner : Storage)
  | throttlingW (inner : Storage)
  | retentionW (cfg : BlobStorageConfiguration) (protected_ids : List String) (inner : Storage)
  | upgradeMonitorW (inner : Storage)
deriving DecidableEq

/-- Wrapper kinds, for talking about the order of layers. -/
inductive WKind where
  | tracingK
  | readonlyK
  | metricsK
  | throttlingK
  | retentionK
  | monitorK
deriving DecidableEq

/-- The layers of a wrapped storage, innermost (closest to the base store,
i.e. applied first) first. -/
def layersOf : Storage → List WKind
  | .base => []
  | .tracing s => layersOf s ++ [.tracingK]
  | .readonlyW s => layersOf s ++ [.readonlyK]
  | .metricsW s => layersOf s ++ [.metricsK]
  | .throttlingW s => layersOf s ++ [.throttlingK]
  | .retentionW _ _ s => layersOf s ++ [.retentionK]
  | .upgradeMonitorW s => layersOf s ++ [.monitorK]

/-- Go strings.HasPrefix on blob ids, reduced to list-of-characters form. -/
def strHasPfx (p s : String) : Bool := p.data.isPrefixOf s.data

/-- The loop of the `PutBlob` callback installed by `wrapLockingStorage`:
the first protected id that the blob id starts with injects the configured
retention mode and period (then breaks); no match leaves the options
untouched. -/
def lockingCallbackLoop (r : BlobStorageConfiguration) (id : String) (opts : PutOptions) :
    List String → PutOptions
  | [] => opts
  | p :: rest =>
    if strHasPfx p id then
      { opts with retentionMode := r.retentionMode, retentionPeriod := r.retentionPeriod }
    else
      lockingCallbackLoop r id opts rest

/-- The `PutBlob` callback closure created by `wrapLockingStorage`. -/
def wrapLockingStorageCallback (r : BlobStorageConfiguration) (protected_ids : List String)
    (id : String) (opts : PutOptions) : PutOptions :=
  lockingCallbackLoop r id opts protected_ids

/-- Source `wrapLockingStorage`: collect the protected id beginnings (the
pack-blob ones, the V0 index-blob one, the epoch uber one, and the two
format blob ids — their concrete values live outside this layer and are
passed in), then wrap the store so the callback runs before every Put. -/
def wrapLockingStorage (st : Storage) (r : BlobStorageConfiguration)
    (packBlobIDPrefixes : List String) (v0IndexBlobPfx epochUberPfx : String)
    (kopiaRepositoryBlobID kopiaBlobCfgBlobID : String) : Storage :=
  Storage.retentionW r
    (packBlobIDPrefixes ++ [v0IndexBlobPfx, epochUberPfx, kopiaRepositoryBlobID, kopiaBlobCfgBlobID])
    st

/-- Modelled from the spec: the options a `Put` presents to the base store
after traversing the wrapper chain — every layer delegates the options
unchanged except the retention wrapper, which runs its callback first. -/
def putOptsSeenByBase : Storage → String → PutOptions → PutOptions
  | .base, _, o => o
  | .tracing s, id, o => putOptsSeenByBase s id o
  | .readonlyW s, id, o => putOptsSeenByBase s id o
  | .metricsW s, id, o => putOptsSeenByBase s id o
  | .throttlingW s, id, o => putOptsSeenByBase s id o
  | .retentionW r pids s, id, o => putOptsSeenByBase s id (wrapLockingStorageCallback r pids id o)
  | .upgradeMonitorW s, id, o => putOptsSeenByBase s id o

/-- The values the monitor callback observes of the shared mutable state and
of the format manager: `lastCheckFast` / `loadedFast` are the shared
last-check time and `fmgr.LoadedTime()` read on the read-locked fast path;
`lastCheckLocked` / `loadedLocked` are the same two values re-read after
acquiring the exclusive section (a concurrent caller may have changed
either in between). -/
structure MonitorObs where
  lastCheckFast : Nat
  loadedFast : Nat
  lastCheckLocked : Nat
  loadedLocked : Nat
deriving DecidableEq

instance : DecidableEq (Except RepoError Unit)
  | .ok (), .ok () => isTrue rfl
  | .error e1, .error e2 =>
    match decEq e1 e2 with
    | isTrue h => isTrue (by rw [h])
    | isFalse h => isFalse fun hc => h (Except.error.inj hc)
  | .ok (), .error _ => isFalse fun hc => Except.noConfusion hc
  | .error _, .ok () => isFalse fun hc => Except.noConfusion hc

/-- Result of one run of the monitor callback: whether the upgrade-lock
intent was fetched from the format manager, the errors handed to the
injected `OnFatalError`, the error returned to the in-flight caller, and
the updated last-verified revision (when the check passed). -/
structure MonitorStepResult where
  didFetch : Bool
  fatalCalls : List RepoError
  result : Except RepoError Unit
  newLastCheck : Option Nat
deriving DecidableEq

/-- The pre-operation callback installed by `upgradeLockMonitor`: fast-path
revision check under the read lock, re-check after acquiring the exclusive
section, then fetch the lock intent, re-run the feature gate (fatal handler
plus returned error on failure), enforce lock ownership, and record the
verified revision. -/
def upgradeLockMonitorStep (requiredResult : Except RepoError (List RequiredFeature))
    (ignoreMissing : Bool) (upgradeOwnerID : String) (now : Nat) (obs : MonitorObs)
    (fetchResult : Except RepoError (Option UpgradeLockIntent)) : MonitorStepResult :=
  if obs.lastCheckFast = obs.loadedFast then
    { didFetch := false, fatalCalls := [], result := .ok (), newLastCheck := none }
  else if obs.lastCheckLocked = obs.loadedLocked then
    { didFetch := false, fatalCalls := [], result := .ok (), newLastCheck := none }
  else
    match fetchResult with
    | .error e =>
      { didFetch := true, fatalCalls := [],
        result := .error (.wrapped "upgrade lock intent" e), newLastCheck := none }
    | .ok uli =>
      match handleMissingRequiredFeatures requiredResult supportedFeatures ignoreMissing with
      | .error e =>
        { didFetch := true, fatalCalls := [e], result := .error e, newLastCheck := none }
      | .ok _ =>
        if isLockedAt uli now && upgradeOwnerID != lockOwner uli then
          { didFetch := true, fatalCalls := [], result := .error .upgradeInProgress,
            newLastCheck := none }
        else
          { didFetch := true, fatalCalls := [], result := .ok (),
            newLastCheck := some obs.loadedLocked }

/-- The parts of the loaded `LocalConfig` (with its embedded client options)
that the open pipeline consults. -/
structure LocalConfig where
  storageSet : Bool
  apiServer : Bool
  readOnly : Bool
  permissiveCacheLoading : Bool
  throttlingOverride : Option Limits

/-- The parts of `repo.Options` the pipeline consults. -/
structure Options where
  traceStorage : Bool
  upgradeOwnerID : String
  doNotWaitForUpgrade : Bool
  testOnlyIgnoreMissingRequiredFeatures : Bool

/-- Outcomes of the external collaborators invoked by the pipeline, plus the
protected-id constants that live outside this layer.  `newThrottlerResult`
is a function of the limits handed to `throttling.NewThrottler`. -/
structure ExternalOutcomes where
  newStorageResult : Except RepoError Unit
  startProfileResult : Except RepoError Unit
  newFormatManagerResult : Except RepoError FormatManager
  connParse : ParseOutcome
  newThrottlerResult : Limits → Except RepoError Unit
  newSharedManagerResult : Except RepoError Unit
  newObjectManagerResult : Except RepoError Unit
  newManifestManagerResult : Except RepoError Unit
  nowTime : Nat
  packBlobIDPrefixes : List String
  v0IndexBlobPfx : String
  epochUberPfx : String
  kopiaRepositoryBlobID : String
  kopiaBlobCfgBlobID : String

/-- The directly opened repository, reduced to the state the claims are
about: the fully wrapped storage, the derived local-cache-integrity secret,
and the effective throttling limits. -/
structure DirectRepo where
  storage : Storage
  cacheHMACSecret : DerivedKey
  limits : Limits
deriving DecidableEq

/-- Observable effects of the pipeline on the base storage handle and the
wrapper chain. -/
inductive Effect where
  | storageOpened
  | storageClosed
  | wrapperApplied (k : WKind)
deriving DecidableEq

/-- The wrapping `openDirect` performs before handing the storage to
`openWithConfig`: the tracing wrapper when `TraceStorage` is set, then the
read-only wrapper when the configuration is read-only. -/
def openDirectInitialStorage (lc : LocalConfig) (opts : Options) : Storage :=
  let s1 := if opts.traceStorage then Storage.tracing Storage.base else Storage.base
  if lc.readOnly then Storage.readonlyW s1 else s1

/-- The wrapper-application effects matching `openDirectInitialStorage`. -/
def openDirectInitialEffects (lc : LocalConfig) (opts : Options) : List Effect :=
  (if opts.traceStorage then [Effect.wrapperApplied WKind.tracingK] else []) ++
    (if lc.readOnly then [Effect.wrapperApplied WKind.readonlyK] else [])

/-- Source `openWithConfig`, as a function of the incoming (already
tracing/read-only wrapped) storage, the configuration, and the outcomes of
the external collaborators; `fuel` bounds the upgrade-wait retry loop and
`none` means the open is still blocked waiting for the upgrade lock.
Returns the effects performed together with the result. -/
def openWithConfigModel (st0 : Storage) (lc : LocalConfig) (opts : Options)
    (ext : ExternalOutcomes) (fuel : Nat) :
    List Effect × Option (Except RepoError DirectRepo) :=
  let st1 := Storage.metricsW st0
  let eff1 := [Effect.wrapperApplied WKind.metricsK]
  match ext.newFormatManagerResult with
  | .error e => (eff1, some (.error (.wrapped "unable to create format manager" e)))
  | .ok fmgr =>
    match handleMissingRequiredFeatures fmgr.requiredFeaturesResult supportedFeatures
        opts.testOnlyIgnoreMissingRequiredFeatures with
    | .error e => (eff1, some (.error e))
    | .ok _ =>
      let secret := selectLocalCacheHMACSecret fmgr
      let limits := effectiveThrottlingLimits lc.throttlingOverride ext.connParse
      match ext.newThrottlerResult limits with
      | .error e => (eff1, some (.error (.wrapped "unable to add throttler" e)))
      | .ok _ =>
        let st2 := Storage.throttlingW st1
        let eff2 := eff1 ++ [Effect.wrapperApplied WKind.throttlingK]
        match fmgr.blobCfgResult with
        | .error e => (eff2, some (.error (.wrapped "blob configuration" e)))
        | .ok blobcfg =>
          let st3 :=
            if blobcfg.IsRetentionEnabled then
              wrapLockingStorage st2 blobcfg ext.packBlobIDPrefixes ext.v0IndexBlobPfx
                ext.epochUberPfx ext.kopiaRepositoryBlobID ext.kopiaBlobCfgBlobID
            else st2
          let eff3 :=
            if blobcfg.IsRetentionEnabled then
              eff2 ++ [Effect.wrapperApplied WKind.retentionK]
            else eff2
          match retryLoop
              (fun i => openUpgradeAttempt lc.permissiveCacheLoading opts.upgradeOwnerID
                ext.nowTime (fmgr.upgradeLockFetches i))
              (isRetriableUpgrade opts.doNotWaitForUpgrade) 0 fuel with
          | none => (eff3, none)
          | some (.error e) => (eff3, some (.error e))
          | some (.ok _) =>
            let st4 :=
              if !lc.permissiveCacheLoading then Storage.upgradeMonitorW st3 else st3
            let eff4 :=
              if !lc.permissiveCacheLoading then
                eff3 ++ [Effect.wrapperApplied WKind.monitorK]
              else eff3
            match ext.newSharedManagerResult with
            | .error e =>
              (eff4, some (.error (.wrapped "unable to create shared content manager" e)))
            | .ok _ =>
              match ext.newObjectManagerResult with
              | .error e => (eff4, some (.error (.wrapped "unable to open object manager" e)))
              | .ok _ =>
                match ext.newManifestManagerResult with
                | .error e => (eff4, some (.error (.wrapped "unable to open manifests" e)))
                | .ok _ =>
                  (eff4, some (.ok { storage := st4, cacheHMACSecret := secret, limits := limits }))

/-- Source `openDirect`: open the base storage, start the profile buffers,
apply the tracing / read-only wrappers, call `openWithConfig`, and close the
storage when `openWithConfig` fails, returning its error unchanged. -/
def openDirectModel (lc : LocalConfig) (opts : Options) (ext : ExternalOutcomes) (fuel : Nat) :
    List Effect × Option (Except RepoError DirectRepo) :=
  if lc.storageSet = false then ([], some (.error .storageNotSet))
  else
    match ext.newStorageResult with
    | .error e => ([], some (.error (.wrapped "cannot open storage" e)))
    | .ok _ =>
      match ext.startProfileResult with
      | .error e =>
        ([Effect.storageOpened], some (.error (.wrapped "unable to setup profile buffers" e)))
      | .ok _ =>
        let effInit := Effect.storageOpened :: openDirectInitialEffects lc opts
        let p := openWithConfigModel (openDirectInitialStorage lc opts) lc opts ext fuel
        match p.2 with
        | some (.error e) => (effInit ++ p.1 ++ [Effect.storageClosed], some (.error e))
        | some (.ok r) => (effInit ++ p.1, some (.ok r))
        | none => (effInit ++ p.1, none)

/-- Source `Open`: resolve the config file path, load the configuration,
reject a writable connection with permissive cache loading, then dispatch to
the API-server client or to `openDirect`.  `apiResult` stands for the
API-server branch, which opens no blob storage here. -/
def OpenModel (absPathResult : Except RepoError Unit)
    (loadConfigResult : Except RepoError LocalConfig) (opts : Options)
    (ext : ExternalOutcomes)
    (apiResult : List Effect × Option (Except RepoError DirectRepo)) (fuel : Nat) :
    List Effect × Option (Except RepoError DirectRepo) :=
  match absPathResult with
  | .error e => ([], some (.error (.wrapped "error resolving config file path" e)))
  | .ok _ =>
    match loadConfigResult with
    | .error e => ([], some (.error e))
    | .ok lc =>
      if lc.permissiveCacheLoading && !lc.readOnly then
        ([], some (.error .cannotWritePermissive))
      else if lc.apiServer then apiResult
      else openDirectModel lc opts ext fuel

/-- The storage chain `openWithConfig` builds on top of the storage it is
handed, written as one expression. -/
def finalStorageChain (st0 : Storage) (lc : LocalConfig) (bc : BlobStorageConfiguration)
    (ext : ExternalOutcomes) : Storage :=
  let st2 := Storage.throttlingW (Storage.metricsW st0)
  let st3 :=
    if bc.IsRetentionEnabled then
      wrapLockingStorage st2 bc ext.packBlobIDPrefixes ext.v0IndexBlobPfx ext.epochUberPfx
        ext.kopiaRepositoryBlobID ext.kopiaBlobCfgBlobID
    else st2
  if !lc.permissiveCacheLoading then Storage.upgradeMonitorW st3 else st3

lemma openWithConfig_ok_char (st0 : Storage) (lc : LocalConfig) (opts : Options)
    (ext : ExternalOutcomes) (fuel : Nat) (r : DirectRepo)
    (h : (openWithConfigModel st0 lc opts ext fuel).2 = some (.ok r)) :
    ∃ fmgr bc, ext.newFormatManagerResult = .ok fmgr ∧ fmgr.blobCfgResult = .ok bc ∧
      r = { storage := finalStorageChain st0 lc bc ext,
            cacheHMACSecret := selectLocalCacheHMACSecret fmgr,
            limits := effectiveThrottlingLimits lc.throttlingOverride ext.connParse } := by
  unfold openWithConfigModel at h
  cases hfm : ext.newFormatManagerResult with
  | error e => rw [hfm] at h; simp at h
  | ok fmgr =>
    rw [hfm] at h
    try simp only [] at h
    cases hmf : handleMissingRequiredFeatures fmgr.requiredFeaturesResult supportedFeatures
        opts.testOnlyIgnoreMissingRequiredFeatures with
    | error e => rw [hmf] at h; simp at h
    | ok u =>
      rw [hmf] at h
      try simp only [] at h
      cases hth : ext.newThrottlerResult
          (effectiveThrottlingLimits lc.throttlingOverride ext.connParse) with
      | error e => rw [hth] at h; simp at h
      | ok v =>
        rw [hth] at h
        try simp only [] at h
        cases hbc : fmgr.blobCfgResult with
        | error e => rw [hbc] at h; simp at h
        | ok bc =>
          rw [hbc] at h
          try simp only [] at h
          cases hrl : retryLoop
              (fun i => openUpgradeAttempt lc.permissiveCacheLoading opts.upgradeOwnerID
                ext.nowTime (fmgr.upgradeLockFetches i))
              (isRetriableUpgrade opts.doNotWaitForUpgrade) 0 fuel with
          | none => rw [hrl] at h; simp at h
          | some res =>
            rw [hrl] at h
            try simp only [] at h
            cases res with
            | error e => simp at h
            | ok w =>
              try simp only [] at h
              cases hsc : ext.newSharedManagerResult with
              | error e => rw [hsc] at h; simp at h
              | ok x =>
                rw [hsc] at h
                try simp only [] at h
                cases hom : ext.newObjectManagerResult with
                | error e => rw [hom] at h; simp at h
                | ok y =>
                  rw [hom] at h
                  try simp only [] at h
                  cases hmm : ext.newManifestManagerResult with
                  | error e => rw [hmm] at h; simp at h
                  | ok z =>
                    rw [hmm] at h
                    simp at h
                    refine ⟨fmgr, bc, rfl, hbc, ?_⟩
                    rw [← h]
                    simp [finalStorageChain, wrapLockingStorage]

lemma openDirect_ok_char (lc : LocalConfig) (opts : Options) (ext : ExternalOutcomes)
    (fuel : Nat) (r : DirectRepo)
    (h : (openDirectModel lc opts ext fuel).2 = some (.ok r)) :
    ∃ fmgr bc, ext.newFormatManagerResult = .ok fmgr ∧ fmgr.blobCfgResult = .ok bc ∧
      r = { storage := finalStorageChain (openDirectInitialStorage lc opts) lc bc ext,
            cacheHMACSecret := selectLocalCacheHMACSecret fmgr,
            limits := effectiveThrottlingLimits lc.throttlingOverride ext.connParse } := by
  unfold openDirectModel at h
  by_cases hs : lc.storageSet = false
  · rw [if_pos hs] at h
    simp at h
  · rw [if_neg hs] at h
    cases hns : ext.newStorageResult with
    | error e => rw [hns] at h; simp at h
    | ok a =>
      rw [hns] at h
      try simp only [] at h
      cases hsp : ext.startProfileResult with
      | error e => rw [hsp] at h; simp at h
      | ok b =>
        rw [hsp] at h
        try simp only [] at h
        cases hp : (openWithConfigModel (openDirectInitialStorage lc opts) lc opts ext fuel).2 with
        | none => rw [hp] at h; simp at h
        | some res =>
          rw [hp] at h
          try simp only [] at h
          cases res with
          | error e => simp at h
          | ok r2 =>
            simp at h
            rw [← h]
            exact openWithConfig_ok_char _ _ _ _ _ _ hp

/-- The wrapper order the specification claims (innermost, i.e. applied
first, at the head of the list): metrics closest to the base store, then
tracing, then read-only, then throttling, then retention, then the
upgrade-lock monitor outermost. -/
def claimedWrapperOrder (t ro ret perm : Bool) : List WKind :=
  [WKind.metricsK] ++ (if t then [WKind.tracingK] else []) ++
    (if ro then [WKind.readonlyK] else []) ++ [WKind.throttlingK] ++
    (if ret then [WKind.retentionK] else []) ++ (if perm then [] else [WKind.monitorK])

/-- The wrapper order the code actually builds (innermost first): tracing,
then read-only, then metrics, then throttling, then retention, then the
upgrade-lock monitor outermost. -/
def builtWrapperOrder (t ro ret perm : Bool) : List WKind :=
  (if t then [WKind.tracingK] else []) ++ (if ro then [WKind.readonlyK] else []) ++
    [WKind.metricsK, WKind.throttlingK] ++ (if ret then [WKind.retentionK] else []) ++
    (if perm then [] else [WKind.monitorK])

lemma layersOf_finalStorageChain (lc : LocalConfig) (opts : Options)
    (bc : BlobStorageConfiguration) (ext : ExternalOutcomes) :
    layersOf (finalStorageChain (openDirectInitialStorage lc opts) lc bc ext) =
      builtWrapperOrder opts.traceStorage lc.readOnly bc.IsRetentionEnabled
        lc.permissiveCacheLoading := by
  cases ht : opts.traceStorage <;> cases hro : lc.readOnly <;>
    cases hret : bc.IsRetentionEnabled <;> cases hperm : lc.permissiveCacheLoading <;>
    simp [finalStorageChain, openDirectInitialStorage, builtWrapperOrder, layersOf,
      wrapLockingStorage, ht, hro, hret, hperm]

/-- C1 (amended): for every successful repository open the wrapper chain is,
from closest to the base store outwards: tracing (when TraceStorage is set),
read-only (when requested), metrics, throttling, retention (when enabled in
the blob configuration), and the upgrade-lock monitor outermost (unless
permissive cache loading is requested).  The metrics wrapper is applied
inside `openWithConfig`, hence after — not before — the tracing and
read-only wrappers. -/
theorem wrapperChain_order (lc : LocalConfig) (opts : Options) (ext : ExternalOutcomes)
    (fuel : Nat) (r : DirectRepo) (fmgr : FormatManager) (bc : BlobStorageConfiguration)
    (hfm : ext.newFormatManagerResult = .ok fmgr) (hbc : fmgr.blobCfgResult = .ok bc)
    (h : (openDirectModel lc opts ext fuel).2 = some (.ok r)) :
    layersOf r.storage = builtWrapperOrder opts.traceStorage lc.readOnly
      bc.IsRetentionEnabled lc.permissiveCacheLoading := by
  obtain ⟨fmgr2, bc2, hfm2, hbc2, hr⟩ := openDirect_ok_char lc opts ext fuel r h
  rw [hfm] at hfm2
  injection hfm2 with hf
  subst hf
  rw [hbc] at hbc2
  injection hbc2 with hb
  subst hb
  rw [hr]
  exact layersOf_finalStorageChain lc opts bc ext

/-- A configuration for a plain direct open: storage configured, not
read-only, not permissive, no throttling override. -/
def lcPlain : LocalConfig :=
  { storageSet := true, apiServer := false, readOnly := false,
    permissiveCacheLoading := false, throttlingOverride := none }

/-- Options with storage tracing enabled. -/
def optsTrace : Options :=
  { traceStorage := true, upgradeOwnerID := "", doNotWaitForUpgrade := false,
    testOnlyIgnoreMissingRequiredFeatures := false }

/-- A blob configuration with retention disabled. -/
def bcOff : BlobStorageConfiguration := { retentionMode := "", retentionPeriod := 0 }

/-- A format manager whose accessors all succeed and that reports no
upgrade lock. -/
def fmgrOK : FormatManager :=
  { requiredFeaturesResult := .ok [], supportsPasswordChange := true,
    hmacSecret := [1, 2], formatEncryptionKey := [3], uniqueID := [4],
    blobCfgResult := .ok bcOff, upgradeLockFetches := fun _ => .ok none, loadedTime := 0 }

/-- External collaborators that all succeed. -/
def extOK : ExternalOutcomes :=
  { newStorageResult := .ok (), startProfileResult := .ok (),
    newFormatManagerResult := .ok fmgrOK, connParse := .parsed Limits.zero,
    newThrottlerResult := fun _ => .ok (), newSharedManagerResult := .ok (),
    newObjectManagerResult := .ok (), newManifestManagerResult := .ok (),
    nowTime := 5, packBlobIDPrefixes := ["p", "q"], v0IndexBlobPfx := "n",
    epochUberPfx := "x", kopiaRepositoryBlobID := "kopia.repository",
    kopiaBlobCfgBlobID := "kopia.blobcfg" }

/-- The repository the pipeline produces for `lcPlain` / `optsTrace` /
`extOK`. -/
def repoTrace : DirectRepo :=
  { storage := .upgradeMonitorW (.throttlingW (.metricsW (.tracing .base))),
    cacheHMACSecret :=
      { masterKey := [1, 2], uniqueID := [4], purpose := "local-cache-integrity", length := 16 },
    limits := Limits.zero }

/-- C1 counterexample: with TraceStorage set, a successful open yields a
chain whose innermost (applied-first) wrapper is the tracing wrapper, not
the metrics wrapper, so the order the claim fixes does not hold. -/
theorem wrapperChain_claim_counterexample :
    (openDirectModel lcPlain optsTrace extOK 1).2 = some (.ok repoTrace) ∧
      layersOf repoTrace.storage ≠ claimedWrapperOrder true false false false :=
  ⟨rfl, by decide⟩

/-- Witness for C1 (amended), at the concrete successful open above. -/
theorem wrapperChain_order_witness :
    layersOf repoTrace.storage = builtWrapperOrder true false false false :=
  wrapperChain_order lcPlain optsTrace extOK 1 repoTrace fmgrOK bcOff rfl rfl rfl

/-- C3: at repository-open time, with permissive cache loading off, a lock
intent that is locked at the current time and owned by someone else fails
the attempt with the upgrade-in-progress error; the backoff loop retries
exactly that error — indefinitely — unless DoNotWaitForUpgrade is set, in
which case the loop surfaces the error from the very first attempt; when
the caller owns the lock, or no lock is held, the loop succeeds on the
first attempt without waiting. -/
theorem upgradeWait_open_behaviour (l : UpgradeLockIntent) (now : Nat) (ownerID : String)
    (fetches : Nat → Except RepoError (Option UpgradeLockIntent)) (dnw : Bool)
    (hlock : isLockedAt (some l) now = true) :
    (ownerID ≠ l.ownerID →
      openUpgradeAttempt false ownerID now (.ok (some l)) = .error .upgradeInProgress) ∧
    (isRetriableUpgrade false .upgradeInProgress = true ∧
      isRetriableUpgrade true .upgradeInProgress = false) ∧
    (ownerID ≠ l.ownerID → fetches 0 = .ok (some l) → ∀ fuel,
      retryLoop (fun i => openUpgradeAttempt false ownerID now (fetches i))
        (isRetriableUpgrade true) 0 (fuel + 1) = some (.error .upgradeInProgress)) ∧
    (ownerID ≠ l.ownerID → (∀ i, fetches i = .ok (some l)) → ∀ start fuel,
      retryLoop (fun i => openUpgradeAttempt false ownerID now (fetches i))
        (isRetriableUpgrade false) start fuel = none) ∧
    (fetches 0 = .ok (some l) →
      retryLoop (fun i => openUpgradeAttempt false l.ownerID now (fetches i))
        (isRetriableUpgrade dnw) 0 1 = some (.ok ())) ∧
    (fetches 0 = .ok none →
      retryLoop (fun i => openUpgradeAttempt false ownerID now (fetches i))
        (isRetriableUpgrade dnw) 0 1 = some (.ok ())) := by
  have hatt : ∀ o : String, o ≠ l.ownerID →
      openUpgradeAttempt false o now (.ok (some l)) = .error .upgradeInProgress := by
    intro o ho
    simp [openUpgradeAttempt, lockOwner, hlock, ho]
  refine ⟨hatt ownerID, ⟨rfl, rfl⟩, ?_, ?_, ?_, ?_⟩
  · intro hne hf0 fuel
    have ha : openUpgradeAttempt false ownerID now (fetches 0) = .error .upgradeInProgress := by
      rw [hf0]; exact hatt ownerID hne
    simp [retryLoop, ha, isRetriableUpgrade]
  · intro hne hall start fuel
    induction fuel generalizing start with
    | zero => rfl
    | succ n ih =>
      have ha : openUpgradeAttempt false ownerID now (fetches start) =
          .error .upgradeInProgress := by
        rw [hall start]; exact hatt ownerID hne
      simp only [retryLoop, ha, isRetriableUpgrade, RepoError.causedByUpgradeInProgress,
        Bool.not_false, Bool.true_and, if_pos]
      exact ih (start + 1)
  · intro hf0
    have ha : openUpgradeAttempt false l.ownerID now (fetches 0) = .ok () := by
      rw [hf0]; simp [openUpgradeAttempt, lockOwner, hlock]
    simp [retryLoop, ha]
  · intro hf0
    have ha : openUpgradeAttempt false ownerID now (fetches 0) = .ok () := by
      rw [hf0]; simp [openUpgradeAttempt, isLockedAt, lockOwner]
    simp [retryLoop, ha]

/-- A lock intent owned by alice, locked over the window 0..10. -/
def lockAlice : UpgradeLockIntent := { ownerID := "alice", lockedFrom := 0, lockedUntil := 10 }

/-- A fetch stream that always reports the alice lock. -/
def fetchesLocked : Nat → Except RepoError (Option UpgradeLockIntent) :=
  fun _ => .ok (some lockAlice)

/-- Witness for C3: at time 5 the alice lock is held, a caller with an empty
owner id and DoNotWaitForUpgrade fails on the first attempt, and the
owner alice succeeds on the first attempt. -/
theorem upgradeWait_open_behaviour_witness :
    retryLoop (fun i => openUpgradeAttempt false "" 5 (fetchesLocked i))
      (isRetriableUpgrade true) 0 1 = some (.error .upgradeInProgress) ∧
    retryLoop (fun i => openUpgradeAttempt false lockAlice.ownerID 5 (fetchesLocked i))
      (isRetriableUpgrade false) 0 1 = some (.ok ()) := by
  have h := upgradeWait_open_behaviour lockAlice 5 "" fetchesLocked false (by decide)
  exact ⟨h.2.2.1 (by decide) rfl 0, h.2.2.2.2.1 rfl⟩

/-- C4: the monitor callback fetches the lock intent only when the loaded
revision differs from the last verified one, both on the read-locked fast
path and again after acquiring the exclusive section (double-checked
locking): a matching revision at either check point returns success with no
fetch, and a fetch happens exactly when both checks see a difference. -/
theorem monitor_double_checked (reqR : Except RepoError (List RequiredFeature)) (ign : Bool)
    (owner : String) (now : Nat) (obs : MonitorObs)
    (fetch : Except RepoError (Option UpgradeLockIntent)) :
    (obs.lastCheckFast = obs.loadedFast →
      upgradeLockMonitorStep reqR ign owner now obs fetch =
        { didFetch := false, fatalCalls := [], result := .ok (), newLastCheck := none }) ∧
    (obs.lastCheckFast ≠ obs.loadedFast → obs.lastCheckLocked = obs.loadedLocked →
      upgradeLockMonitorStep reqR ign owner now obs fetch =
        { didFetch := false, fatalCalls := [], result := .ok (), newLastCheck := none }) ∧
    ((upgradeLockMonitorStep reqR ign owner now obs fetch).didFetch = true ↔
      (obs.lastCheckFast ≠ obs.loadedFast ∧ obs.lastCheckLocked ≠ obs.loadedLocked)) := by
  refine ⟨?_, ?_, ?_⟩
  · intro h
    simp [upgradeLockMonitorStep, h]
  · intro h1 h2
    simp [upgradeLockMonitorStep, h1, h2]
  · by_cases h1 : obs.lastCheckFast = obs.loadedFast
    · simp [upgradeLockMonitorStep, h1]
    · by_cases h2 : obs.lastCheckLocked = obs.loadedLocked
      · simp [upgradeLockMonitorStep, h1, h2]
      · simp only [upgradeLockMonitorStep, if_neg h1, if_neg h2]
        cases fetch with
        | error e => simp [h1, h2]
        | ok uli =>
          cases hmf : handleMissingRequiredFeatures reqR supportedFeatures ign with
          | error e => simp [hmf, h1, h2]
          | ok u =>
            simp only [hmf]
            by_cases hl : (isLockedAt uli now && owner != lockOwner uli) = true
            · simp [hl, h1, h2]
            · have hl0 : (isLockedAt uli now && owner != lockOwner uli) = false := by
                cases hb : isLockedAt uli now && owner != lockOwner uli
                · rfl
                · exact absurd hb hl
              simp [hl0, h1, h2]

/-- Observations where the loaded revision equals the last verified one
already on the fast path. -/
def obsFresh : MonitorObs :=
  { lastCheckFast := 3, loadedFast := 3, lastCheckLocked := 3, loadedLocked := 3 }

/-- Observations where the revision differs at both check points. -/
def obsStale : MonitorObs :=
  { lastCheckFast := 0, loadedFast := 1, lastCheckLocked := 0, loadedLocked := 1 }

/-- Witness for C4: an already-verified revision proceeds without fetching. -/
theorem monitor_double_checked_witness :
    upgradeLockMonitorStep (.ok []) false "" 5 obsFresh (.ok none) =
      { didFetch := false, fatalCalls := [], result := .ok (), newLastCheck := none } :=
  (monitor_double_checked (.ok []) false "" 5 obsFresh (.ok none)).1 rfl

/-- C8: when the feature-compatibility re-check inside the monitor callback
fails, the callback hands that error to the injected OnFatalError handler
and returns the very same error to the in-flight caller — both happen. -/
theorem monitor_fatal_and_return (reqR : Except RepoError (List RequiredFeature)) (ign : Bool)
    (owner : String) (now : Nat) (obs : MonitorObs) (uli : Option UpgradeLockIntent)
    (e : RepoError)
    (h1 : obs.lastCheckFast ≠ obs.loadedFast) (h2 : obs.lastCheckLocked ≠ obs.loadedLocked)
    (hmf : handleMissingRequiredFeatures reqR supportedFeatures ign = .error e) :
    (upgradeLockMonitorStep reqR ign owner now obs (.ok uli)).result = .error e ∧
    (upgradeLockMonitorStep reqR ign owner now obs (.ok uli)).fatalCalls = [e] := by
  constructor <;> simp [upgradeLockMonitorStep, h1, h2, hmf]

/-- Witness for C8: a stale revision plus a hard-fail missing feature makes
the callback both record the fatal call and return the same error. -/
theorem monitor_fatal_and_return_witness :
    (upgradeLockMonitorStep (.ok [featureV3]) false "" 5 obsStale (.ok none)).result =
      .error (.missingFeature "feature index-v3 is required") ∧
    (upgradeLockMonitorStep (.ok [featureV3]) false "" 5 obsStale (.ok none)).fatalCalls =
      [.missingFeature "feature index-v3 is required"] :=
  monitor_fatal_and_return (.ok [featureV3]) false "" 5 obsStale none
    (.missingFeature "feature index-v3 is required") (by decide) (by decide) rfl

/-- C5: the master secret for the local-cache-integrity key is selected by
the password-change capability — the dedicated HMAC secret when password
change is supported, the format encryption key otherwise — always keyed by
the repository unique id, the fixed purpose label, and a 16-byte output
length; a successful open carries exactly this derived secret. -/
theorem cacheKey_master_secret_selection (fmgr : FormatManager) (lc : LocalConfig)
    (opts : Options) (ext : ExternalOutcomes) (fuel : Nat) (r : DirectRepo) :
    (fmgr.supportsPasswordChange = true →
      selectLocalCacheHMACSecret fmgr =
        { masterKey := fmgr.hmacSecret, uniqueID := fmgr.uniqueID,
          purpose := localCacheIntegrityPurpose,
          length := localCacheIntegrityHMACSecretLength }) ∧
    (fmgr.supportsPasswordChange = false →
      selectLocalCacheHMACSecret fmgr =
        { masterKey := fmgr.formatEncryptionKey, uniqueID := fmgr.uniqueID,
          purpose := localCacheIntegrityPurpose,
          length := localCacheIntegrityHMACSecretLength }) ∧
    (localCacheIntegrityPurpose = "local-cache-integrity" ∧
      localCacheIntegrityHMACSecretLength = 16) ∧
    (ext.newFormatManagerResult = .ok fmgr →
      (openDirectModel lc opts ext fuel).2 = some (.ok r) →
      r.cacheHMACSecret = selectLocalCacheHMACSecret fmgr) := by
  refine ⟨?_, ?_, ⟨rfl, rfl⟩, ?_⟩
  · intro h
    simp [selectLocalCacheHMACSecret, h, deriveKeyFromMasterKey]
  · intro h
    simp [selectLocalCacheHMACSecret, h, deriveKeyFromMasterKey]
  · intro hfm hok
    obtain ⟨fmgr2, bc2, hfm2, hbc2, hr⟩ := openDirect_ok_char lc opts ext fuel r hok
    rw [hfm] at hfm2
    injection hfm2 with hf
    subst hf
    rw [hr]

/-- Witness for C5: the concrete successful open uses the HMAC-secret path
of its password-change-capable format manager. -/
theorem cacheKey_master_secret_selection_witness :
    selectLocalCacheHMACSecret fmgrOK =
      { masterKey := fmgrOK.hmacSecret, uniqueID := fmgrOK.uniqueID,
        purpose := localCacheIntegrityPurpose,
        length := localCacheIntegrityHMACSecretLength } ∧
    repoTrace.cacheHMACSecret = selectLocalCacheHMACSecret fmgrOK := by
  have h := cacheKey_master_secret_selection fmgrOK lcPlain optsTrace extOK 1 repoTrace
  exact ⟨h.1 rfl, h.2.2.2 rfl rfl⟩

/-- C6: the effective throttling limits are the operator override when one
is present and the connection-info-derived limits otherwise; either codec
failure yields the zero-value (no-limit) limits; and an open whose
connection-info limits fail to parse behaves exactly like one that parsed
the zero-value limits, so the failure alone never fails the open. -/
theorem throttling_limits_resolution (lc : LocalConfig) (opts : Options)
    (ext : ExternalOutcomes) (st0 : Storage) (fuel : Nat) (l : Limits) (p : ParseOutcome) :
    (effectiveThrottlingLimits (some l) p = l) ∧
    (effectiveThrottlingLimits none p = throttlingLimitsFromConnectionInfo p) ∧
    (throttlingLimitsFromConnectionInfo .marshalFail = Limits.zero ∧
      throttlingLimitsFromConnectionInfo .unmarshalFail = Limits.zero) ∧
    (lc.throttlingOverride = none →
      (openWithConfigModel st0 lc opts { ext with connParse := .marshalFail } fuel =
        openWithConfigModel st0 lc opts { ext with connParse := .parsed Limits.zero } fuel) ∧
      (openWithConfigModel st0 lc opts { ext with connParse := .unmarshalFail } fuel =
        openWithConfigModel st0 lc opts { ext with connParse := .parsed Limits.zero } fuel)) := by
  refine ⟨rfl, rfl, ⟨rfl, rfl⟩, ?_⟩
  intro hov
  constructor <;>
    simp [openWithConfigModel, effectiveThrottlingLimits, hov,
      throttlingLimitsFromConnectionInfo]

/-- Witness for C6: with no operator override, a marshal failure and a
parsed zero-value limits produce the same open outcome. -/
theorem throttling_limits_resolution_witness :
    openWithConfigModel Storage.base lcPlain optsTrace
        { extOK with connParse := .marshalFail } 1 =
      openWithConfigModel Storage.base lcPlain optsTrace
        { extOK with connParse := .parsed Limits.zero } 1 :=
  ((throttling_limits_resolution lcPlain optsTrace extOK Storage.base 1 Limits.zero
    .marshalFail).2.2.2 rfl).1

lemma lockingCallbackLoop_matched (r : BlobStorageConfiguration) (id : String)
    (opts : PutOptions) (l : List String) (h : ∃ p ∈ l, strHasPfx p id = true) :
    (lockingCallbackLoop r id opts l).retentionMode = r.retentionMode ∧
    (lockingCallbackLoop r id opts l).retentionPeriod = r.retentionPeriod ∧
    (lockingCallbackLoop r id opts l).rest = opts.rest := by
  induction l with
  | nil =>
    obtain ⟨p, hp, -⟩ := h
    cases hp
  | cons x rest ih =>
    by_cases hx : strHasPfx x id = true
    · simp [lockingCallbackLoop, hx]
    · have hx0 : strHasPfx x id = false := by
        cases hb : strHasPfx x id
        · rfl
        · exact absurd hb hx
      rw [lockingCallbackLoop, if_neg (by simp [hx0])]
      apply ih
      obtain ⟨p, hp, hpp⟩ := h
      rcases List.mem_cons.mp hp with hpx | hpr
      · rw [hpx] at hpp
        exact absurd hpp hx
      · exact ⟨p, hpr, hpp⟩

lemma lockingCallbackLoop_unmatched (r : BlobStorageConfiguration) (id : String)
    (opts : PutOptions) (l : List String) (h : ∀ p ∈ l, strHasPfx p id = false) :
    lockingCallbackLoop r id opts l = opts := by
  induction l with
  | nil => rfl
  | cons x rest ih =>
    rw [lockingCallbackLoop, if_neg (by simp [h x (by simp)])]
    exact ih fun p hp => h p (by simp [hp])

/-- C7: a Put through the retention wrapper whose blob id starts with one of
the protected ids (a pack-blob one, the V0 index-blob one, the epoch uber
one, the repository format blob id, or the blob-config blob id) reaches the
underlying store with the configured retention mode and period and its
other fields untouched; a Put matching none of them reaches the store with
its options unchanged. -/
theorem retention_put_options (r : BlobStorageConfiguration) (packs : List String)
    (v0 uber rid cid : String) (id : String) (opts : PutOptions) :
    ((∃ p ∈ packs ++ [v0, uber, rid, cid], strHasPfx p id = true) →
      (wrapLockingStorageCallback r (packs ++ [v0, uber, rid, cid]) id opts).retentionMode =
          r.retentionMode ∧
        (wrapLockingStorageCallback r (packs ++ [v0, uber, rid, cid]) id opts).retentionPeriod =
          r.retentionPeriod ∧
        (wrapLockingStorageCallback r (packs ++ [v0, uber, rid, cid]) id opts).rest =
          opts.rest) ∧
    ((∀ p ∈ packs ++ [v0, uber, rid, cid], strHasPfx p id = false) →
      wrapLockingStorageCallback r (packs ++ [v0, uber, rid, cid]) id opts = opts) ∧
    (putOptsSeenByBase (wrapLockingStorage Storage.base r packs v0 uber rid cid) id opts =
      wrapLockingStorageCallback r (packs ++ [v0, uber, rid, cid]) id opts) := by
  refine ⟨?_, ?_, rfl⟩
  · intro h
    exact lockingCallbackLoop_matched r id opts _ h
  · intro h
    exact lockingCallbackLoop_unmatched r id opts _ h

/-- A blob configuration with retention enabled. -/
def bcLock : BlobStorageConfiguration := { retentionMode := "COMPLIANCE", retentionPeriod := 30 }

/-- Options of a Put before the retention wrapper touches them. -/
def optsPut : PutOptions := { retentionMode := "", retentionPeriod := 0, rest := 7 }

/-- Witness for C7: a pack blob id picks up the configured retention options
with the other fields untouched, and an unprotected id passes unchanged. -/
theorem retention_put_options_witness :
    (wrapLockingStorageCallback bcLock
        (["p", "q"] ++ ["n", "x", "kopia.repository", "kopia.blobcfg"]) "p123" optsPut).retentionMode =
      bcLock.retentionMode ∧
    (wrapLockingStorageCallback bcLock
        (["p", "q"] ++ ["n", "x", "kopia.repository", "kopia.blobcfg"]) "zzz" optsPut) = optsPut := by
  have h := retention_put_options bcLock ["p", "q"] "n" "x" "kopia.repository" "kopia.blobcfg"
  exact ⟨((h "p123" optsPut).1 (by decide)).1, (h "zzz" optsPut).2.1 (by decide)⟩

/-- C9: a loaded configuration with permissive cache loading set but not
read-only makes Open fail with the dedicated error, with no storage opened
and no wrapper constructed (the empty effect list), whatever the
downstream collaborators would have done. -/
theorem open_permissive_requires_readonly (loadR : Except RepoError LocalConfig)
    (opts : Options) (ext : ExternalOutcomes)
    (apiR : List Effect × Option (Except RepoError DirectRepo)) (fuel : Nat)
    (lc : LocalConfig) (hload : loadR = .ok lc) (hperm : lc.permissiveCacheLoading = true)
    (hro : lc.readOnly = false) :
    OpenModel (.ok ()) loadR opts ext apiR fuel = ([], some (.error .cannotWritePermissive)) := by
  subst hload
  simp [OpenModel, hperm, hro]

/-- A configuration with permissive cache loading requested on a writable
connection. -/
def lcPermissiveWrite : LocalConfig :=
  { storageSet := true, apiServer := false, readOnly := false,
    permissiveCacheLoading := true, throttlingOverride := none }

/-- Witness for C9, at the concrete permissive-but-writable configuration. -/
theorem open_permissive_requires_readonly_witness :
    OpenModel (.ok ()) (.ok lcPermissiveWrite) optsTrace extOK ([], none) 1 =
      ([], some (.error .cannotWritePermissive)) :=
  open_permissive_requires_readonly (.ok lcPermissiveWrite) optsTrace extOK ([], none) 1
    lcPermissiveWrite rfl rfl rfl

/-- C10 (amended): whenever `openWithConfig` fails, `openDirect` closes the
opened base storage and returns the error unchanged; the stronger consequence
in the claim — that no failed open ever leaks the handle — does not hold,
because a profile-buffer start failure returns after the storage was opened
without closing it. -/
theorem openDirect_closes_on_openWithConfig_failure (lc : LocalConfig) (opts : Options)
    (ext : ExternalOutcomes) (fuel : Nat) (effs : List Effect) (e : RepoError)
    (hs : lc.storageSet = true) (hns : ext.newStorageResult = .ok ())
    (hsp : ext.startProfileResult = .ok ())
    (hw : openWithConfigModel (openDirectInitialStorage lc opts) lc opts ext fuel =
      (effs, some (.error e))) :
    openDirectModel lc opts ext fuel =
      (Effect.storageOpened :: (openDirectInitialEffects lc opts ++ effs ++
        [Effect.storageClosed]), some (.error e)) := by
  simp [openDirectModel, hs, hns, hsp, hw, List.append_assoc]

/-- External collaborators where creating the format manager fails. -/
def extFmtFail : ExternalOutcomes :=
  { extOK with newFormatManagerResult := .error (.external "format" 2) }

/-- Witness for C10 (amended): a format-manager failure inside
`openWithConfig` makes `openDirect` close the storage and return the
wrapped error unchanged. -/
theorem openDirect_closes_on_openWithConfig_failure_witness :
    openDirectModel lcPlain optsTrace extFmtFail 1 =
      (Effect.storageOpened :: (openDirectInitialEffects lcPlain optsTrace ++
        [Effect.wrapperApplied WKind.metricsK] ++ [Effect.storageClosed]),
        some (.error (.wrapped "unable to create format manager" (.external "format" 2)))) :=
  openDirect_closes_on_openWithConfig_failure lcPlain optsTrace extFmtFail 1
    [Effect.wrapperApplied WKind.metricsK]
    (.wrapped "unable to create format manager" (.external "format" 2)) rfl rfl rfl rfl

/-- External collaborators where starting the profile buffers fails. -/
def extProfileFail : ExternalOutcomes :=
  { extOK with startProfileResult := .error (.external "pprof" 0) }

/-- C10 counterexample: when starting the profile buffers fails — after the
base storage was already opened — `openDirect` returns the error without
closing the storage, so this failed open leaks the open handle, refuting
the claim that a failed open never leaks one. -/
theorem openDirect_leak_counterexample :
    (openDirectModel lcPlain optsTrace extProfileFail 1).2 =
      some (.error (.wrapped "unable to setup profile buffers" (.external "pprof" 0))) ∧
    (openDirectModel lcPlain optsTrace extProfileFail 1).1 = [Effect.storageOpened] ∧
    Effect.storageClosed ∉ [Effect.storageOpened] :=
  ⟨rfl, rfl, by decide⟩

end Kopia
